import Mathlib

/-!
Verification development for the stack-over-mcp repository (src/stack_api.py and
src/main.py): a Stack Overflow search client with a fallback search cascade,
exposed as three tools.  The Python code is shallowly embedded below: the HTTP
transport is an explicit oracle parameter mapping an endpoint and its query
parameters to either a transport failure (modelling requests.RequestException,
carrying the exception message) or the decoded items array of the JSON
response; every function additionally returns the list of upstream calls it
made, in order, so that dispatch and cascade behaviour is visible in the
result.  Python strings are modelled as Lean String, manipulated through their
character lists (Python indexing/slicing is by code point); Python int is Int;
a raised IndexError is modelled by an Option-valued function returning none.
-/

set_option maxRecDepth 10000

/-! ### Basic string machinery (Python semantics, on character lists) -/

/-- Python whitespace characters recognised by str.split() (ASCII subset;
the source only ever splits ASCII queries). -/
def pyIsSpace (c : Char) : Bool :=
  c = ' ' || c = '\t' || c = '\n' || c = '\r' || c = '\x0b' || c = '\x0c'

/-- A word character in the sense of the regex \w: alphanumeric or underscore
(ASCII; the source applies it to lowercased query text). -/
def isWordChar (c : Char) : Bool :=
  c.isAlphanum || c = '_'

/-- Splits a character list into the maximal runs of characters satisfying
`keep`, accumulating the current run in `acc` (reversed). -/
def splitRunsGo (keep : Char → Bool) (acc : List Char) : List Char → List String
  | [] => if acc.isEmpty then [] else [⟨acc.reverse⟩]
  | c :: rest =>
    if keep c then splitRunsGo keep (c :: acc) rest
    else if acc.isEmpty then splitRunsGo keep [] rest
    else ⟨acc.reverse⟩ :: splitRunsGo keep [] rest

/-- Maximal runs of `keep`-characters of a character list, as strings. -/
def splitRuns (keep : Char → Bool) (l : List Char) : List String :=
  splitRunsGo keep [] l

/-- Python str.lower() (ASCII subset: Char.toLower only maps A-Z). -/
def pyLower (s : String) : String :=
  ⟨s.data.map Char.toLower⟩

/-- Python str.split() with no separator: whitespace runs are separators,
empty tokens are dropped. -/
def pySplit (s : String) : List String :=
  splitRuns (fun c => !pyIsSpace c) s.data

/-- sep.join(parts) on character lists. -/
def joinSep (sep : List Char) : List String → List Char
  | [] => []
  | [t] => t.data
  | t :: ts => t.data ++ sep ++ joinSep sep ts

/-- Is `needle` a leading segment of `hay`? -/
def isPrefixL : List Char → List Char → Bool
  | [], _ => true
  | _ :: _, [] => false
  | a :: as, b :: bs => a == b && isPrefixL as bs

/-- Python substring containment (`needle in hay`). -/
def containsSub (needle : List Char) : List Char → Bool
  | [] => needle.isEmpty
  | c :: rest => isPrefixL needle (c :: rest) || containsSub needle rest

/-- Python str.replace(p, r) with a skip counter: while `n+1` characters of a
just-matched occurrence remain to be consumed, drop them; at `0`, test for an
occurrence of `p` at the current position, emit `r` and skip its characters on
a match, otherwise keep the character.  Occurrences are non-overlapping,
scanned left to right, and the inserted `r` is never rescanned. -/
def replaceGo (p r : List Char) : Nat → List Char → List Char
  | _, [] => []
  | n + 1, _ :: rest => replaceGo p r n rest
  | 0, c :: rest =>
    if isPrefixL p (c :: rest) && !p.isEmpty then
      r ++ replaceGo p r (p.length - 1) rest
    else
      c :: replaceGo p r 0 rest

/-- Python str.replace(p, r). -/
def replaceList (p r : List Char) (l : List Char) : List Char :=
  replaceGo p r 0 l

/-- One-pass engine for re.sub('<[^<]+?>', '', text).  The state is `none`
outside any candidate match, or `some cs` after an opening '<' with the
(reversed) characters consumed so far by the lazy `[^<]+?`.  A '>' after at
least one consumed character closes the match (everything is dropped); a '<'
aborts the candidate, which is emitted verbatim, and starts a fresh candidate
(the regex engine resumes its search right after the failed '<', and the only
later position where a match can start is the next '<'); end of input emits
any pending candidate. -/
def stripTagsGo : Option (List Char) → List Char → List Char
  | none, [] => []
  | none, c :: rest =>
    if c = '<' then stripTagsGo (some []) rest else c :: stripTagsGo none rest
  | some cs, [] => '<' :: cs.reverse
  | some cs, c :: rest =>
    if c = '<' then ('<' :: cs.reverse) ++ stripTagsGo (some []) rest
    else if c = '>' then
      if cs.isEmpty then stripTagsGo (some ['>']) rest
      else stripTagsGo none rest
    else stripTagsGo (some (c :: cs)) rest

/-- re.sub('<[^<]+?>', '', text): remove every leftmost minimal match of the
tag pattern, keeping unmatched characters. -/
def stripTags (l : List Char) : List Char :=
  stripTagsGo none l

/-- Digits of a natural number, most significant first, prepended to acc.  The
first argument is fuel bounding the number of digits; `n` itself is always
sufficient fuel since a number has at most `n` digits. -/
def natToDigitsGo : Nat → Nat → List Char → List Char
  | 0, _, acc => acc
  | fuel + 1, n, acc =>
    if n < 10 then Char.ofNat (48 + n) :: acc
    else natToDigitsGo fuel (n / 10) (Char.ofNat (48 + n % 10) :: acc)

/-- Python str(i) for an int. -/
def intToStr (i : Int) : String :=
  if i < 0 then ⟨'-' :: natToDigitsGo (i.natAbs + 1) i.natAbs []⟩
  else ⟨natToDigitsGo (i.toNat + 1) i.toNat []⟩

/-- Python slicing s[:n] (by code points, modelled on the character list). -/
def strTake (s : String) (n : Nat) : String :=
  ⟨s.data.take n⟩

/-! ### Text analyzer (stack_api.py lines 21-72) -/

/-- The fixed stop-word set of _extract_keywords, transcribed verbatim from
the source (the source set literal lists 'right' twice; membership is
unaffected). -/
def stop_words : List String :=
  ["how", "to", "the", "a", "an", "and", "or", "but", "in", "on", "at", "for",
   "with", "by", "from", "up", "about", "into", "through", "during", "before",
   "after", "above", "below", "between", "among", "can", "could", "should",
   "would", "will", "shall", "may", "might", "must", "do", "does", "did",
   "have", "has", "had", "be", "am", "is", "are", "was", "were", "been",
   "being", "get", "got", "make", "made", "take", "took", "give", "gave",
   "come", "came", "go", "went", "see", "saw", "know", "knew", "think",
   "thought", "say", "said", "tell", "told", "become", "became", "leave",
   "left", "find", "found", "seem", "seemed", "turn", "turned", "put", "set",
   "move", "moved", "right", "way", "even", "back", "good", "new", "first",
   "last", "long", "great", "little", "own", "other", "old", "right", "big",
   "high", "different", "small", "large", "next", "early", "young",
   "important", "few", "public", "bad", "same", "able"]

/-- re.findall(r'\b\w+\b', query.lower()): the maximal word-character runs of
the lowercased query. -/
def queryTokens (q : String) : List String :=
  splitRuns isWordChar (pyLower q).data

/-- _extract_keywords: tokenize the lowercased query, drop stop words and
tokens of length ≤ 2, keep the first 5 survivors. -/
def extract_keywords (q : String) : List String :=
  ((queryTokens q).filter (fun w => !stop_words.contains w && decide (2 < w.data.length))).take 5

/-- The fixed technology-term vocabulary of _extract_technology_terms.  The
source stores it in a Python set whose iteration order is unspecified; it is
modelled in the order of the source's set literal (no claim depends on the
order, only on membership and emptiness). -/
def tech_terms : List String :=
  ["python", "javascript", "java", "c#", "c++", "php", "ruby", "go", "rust",
   "swift", "kotlin", "react", "vue", "angular", "node", "express", "django",
   "flask", "spring", "laravel", "mysql", "postgresql", "mongodb", "redis",
   "elasticsearch", "docker", "kubernetes", "aws", "azure", "gcp", "pandas",
   "numpy", "tensorflow", "pytorch", "airflow", "spark", "hadoop", "kafka",
   "git", "github", "gitlab", "jenkins", "ci/cd"]

/-- _extract_technology_terms: substring containment of each vocabulary term
in the lowercased query, plus the dag/airflow special case. -/
def extract_technology_terms (q : String) : List String :=
  let ql := (pyLower q).data
  let found := tech_terms.filter (fun t => containsSub t.data ql)
  if containsSub "dag".data ql && containsSub "airflow".data ql then
    found ++ ["airflow-scheduler"]
  else
    found

/-! ### Data model: upstream calls and records -/

/-- The two upstream REST endpoints used by the search dispatcher:
/search/advanced and /questions. -/
inductive Endpoint where
  | searchAdvanced
  | questions
deriving DecidableEq

/-- The query-parameter dictionary sent upstream.  Optional fields model keys
that the source adds only conditionally ('q' is absent in tag-only primary
searches, 'tagged' and 'accepted' are added under truthiness checks). -/
structure Params where
  order : String
  sort : String
  q : Option String
  site : String
  pagesize : Int
  tagged : Option String
  accepted : Option String
  filter : String
deriving DecidableEq

/-- A raw question record of the upstream 'items' array; every field the
formatter reads, each optional since .get is used with defaults. -/
structure RawQuestion where
  question_id : Option Int
  title : Option String
  score : Option Int
  view_count : Option Int
  answer_count : Option Int
  is_answered : Option Bool
  accepted_answer_id : Option Int
  tags : Option (List String)
  creation_date : Option Int
  last_activity_date : Option Int
  link : Option String
  body : Option String
deriving DecidableEq

deriving instance DecidableEq for Except

/-- The transport layer as an oracle: a GET request to an endpoint with given
parameters either fails (requests.RequestException, carrying the exception
text) or returns the decoded 'items' array of the JSON response. -/
abbrev Oracle := Endpoint → Params → Except String (List RawQuestion)

/-- One upstream call as recorded in a trace. -/
abbrev Call := Endpoint × Params

/-- The metadata dict stored under 'fallback_used' when a fallback strategy
succeeds. -/
structure FallbackUsed where
  original_query : String
  fallback_query : String
  fallback_tags : Option (List String)
deriving DecidableEq

/-- The dictionary returned by the search layer: an optional 'error' key, the
'items' array (empty when absent), and the optional 'fallback_used' metadata. -/
structure SearchResult where
  error : Option String
  items : List RawQuestion
  fallback_used : Option FallbackUsed
deriving DecidableEq

/-- A fallback search strategy descriptor (query, tags, accepted_only). -/
structure Strategy where
  query : String
  tags : Option (List String)
  accepted_only : Bool
deriving DecidableEq

/-- Python truthiness of an optional tag list: present and non-empty. -/
def tagsTruthy : Option (List String) → Bool
  | some ts => !ts.isEmpty
  | none => false

/-- min(max(limit, 1), 100): the pagesize clamp applied at every call site. -/
def clampLimit (limit : Int) : Int :=
  min (max limit 1) 100

/-! ### Search dispatcher (stack_api.py lines 74-269) -/

/-- The params dict built by _search_advanced. -/
def advancedParams (query : String) (limit : Int) (srt : String)
    (tags : Option (List String)) (accepted_only : Bool) : Params :=
  { order := "desc", sort := srt, q := some query, site := "stackoverflow",
    pagesize := clampLimit limit, filter := "withbody",
    tagged := if tagsTruthy tags then some ⟨joinSep [';'] (tags.getD [])⟩ else none,
    accepted := if accepted_only then some "True" else none }

/-- The params dict built by _search_by_tags_only (no 'q' key). -/
def tagsOnlyParams (tags : List String) (limit : Int) (srt : String)
    (accepted_only : Bool) : Params :=
  { order := "desc", sort := srt, q := none, site := "stackoverflow",
    pagesize := clampLimit limit, filter := "withbody",
    tagged := some ⟨joinSep [';'] tags⟩,
    accepted := if accepted_only then some "True" else none }

/-- A strategy is skipped when both its query and its tags are falsy. -/
def skippedStrategy (s : Strategy) : Bool :=
  s.query == "" && !tagsTruthy s.tags

/-- A strategy is dispatched exactly when it is not skipped. -/
def eligible (s : Strategy) : Bool :=
  !skippedStrategy s

/-- Endpoint selection inside the fallback loop: query and tags go to
/search/advanced, tags without query to /questions, anything else to
/search/advanced. -/
def strategyEndpoint (s : Strategy) : Endpoint :=
  if !(s.query == "") && tagsTruthy s.tags then .searchAdvanced
  else if tagsTruthy s.tags && s.query == "" then .questions
  else .searchAdvanced

/-- The params dict built inside the fallback loop for one strategy ('q' is
always present there, even for /questions calls). -/
def strategyParams (limit : Int) (srt : String) (s : Strategy) : Params :=
  { order := "desc", sort := srt, q := some s.query, site := "stackoverflow",
    pagesize := clampLimit limit, filter := "withbody",
    tagged := if tagsTruthy s.tags then some ⟨joinSep [';'] (s.tags.getD [])⟩ else none,
    accepted := if s.accepted_only then some "True" else none }

/-- The upstream call made for one fallback strategy. -/
def strategyCall (limit : Int) (srt : String) (s : Strategy) : Call :=
  (strategyEndpoint s, strategyParams limit srt s)

/-- The upstream response for one fallback strategy. -/
def attempt (O : Oracle) (limit : Int) (srt : String) (s : Strategy) :
    Except String (List RawQuestion) :=
  O (strategyEndpoint s) (strategyParams limit srt s)

/-- The query of strategy 4: the first extracted keyword, else
original_query.split()[0].  Python raises IndexError when split() is empty
(whitespace-only query); the raise is modelled as none. -/
def strategy4Query (original_query : String) : Option String :=
  match extract_keywords original_query with
  | k :: _ => some k
  | [] => (pySplit original_query).head?

/-- The fallback strategy list literal of _try_fallback_searches.  Building it
evaluates strategy 4's query, so a whitespace-only original query makes the
whole construction raise (none). -/
def fallbackStrategies (original_query : String) (original_tags : Option (List String)) :
    Option (List Strategy) :=
  match strategy4Query original_query with
  | none => none
  | some q4 => some
    [ { query := ⟨joinSep [' '] (extract_keywords original_query)⟩,
        tags := original_tags, accepted_only := false },
      { query := ⟨joinSep [' '] (extract_keywords original_query)⟩,
        tags := if extract_technology_terms original_query ≠ [] then
            some (extract_technology_terms original_query)
          else original_tags,
        accepted_only := false },
      { query := "", tags := some (extract_technology_terms original_query),
        accepted_only := false },
      { query := q4, tags := none, accepted_only := false } ]

/-- The for-loop of _try_fallback_searches over the strategy list: skip
ineligible strategies without a call; on a transport failure continue with the
next strategy; on a non-empty result stop and record the fallback metadata;
when the list is exhausted return the bare empty result.  Also returns the
calls made, in order. -/
def tryFallbackLoop (O : Oracle) (original_query : String) (limit : Int) (srt : String) :
    List Strategy → SearchResult × List Call
  | [] => ({ error := none, items := [], fallback_used := none }, [])
  | s :: rest =>
    if eligible s then
      match attempt O limit srt s with
      | .error _ =>
        let pr := tryFallbackLoop O original_query limit srt rest
        (pr.1, strategyCall limit srt s :: pr.2)
      | .ok items =>
        if items.isEmpty then
          let pr := tryFallbackLoop O original_query limit srt rest
          (pr.1, strategyCall limit srt s :: pr.2)
        else
          ({ error := none, items := items,
             fallback_used := some ⟨original_query, s.query, s.tags⟩ },
           [strategyCall limit srt s])
    else tryFallbackLoop O original_query limit srt rest

/-- _try_fallback_searches: build the strategy list (none models the
IndexError raised for a whitespace-only query) and run the loop. -/
def try_fallback_searches (O : Oracle) (original_query : String) (limit : Int)
    (srt : String) (original_tags : Option (List String)) (_accepted_only : Bool) :
    Option (SearchResult × List Call) :=
  (fallbackStrategies original_query original_tags).map
    (tryFallbackLoop O original_query limit srt)

/-- _search_advanced: call /search/advanced; a transport failure becomes an
error result; an empty items array triggers the fallback cascade; a non-empty
one is returned as-is. -/
def search_advanced (O : Oracle) (query : String) (limit : Int) (srt : String)
    (tags : Option (List String)) (accepted_only : Bool) :
    Option (SearchResult × List Call) :=
  match O .searchAdvanced (advancedParams query limit srt tags accepted_only) with
  | .error e =>
    some ({ error := some ("API request failed: " ++ e), items := [],
            fallback_used := none },
      [(.searchAdvanced, advancedParams query limit srt tags accepted_only)])
  | .ok items =>
    if items.isEmpty then
      match try_fallback_searches O query limit srt tags accepted_only with
      | none => none
      | some (r, t) =>
        some (r, (.searchAdvanced, advancedParams query limit srt tags accepted_only) :: t)
    else
      some ({ error := none, items := items, fallback_used := none },
        [(.searchAdvanced, advancedParams query limit srt tags accepted_only)])

/-- _search_by_tags_only: call /questions; a transport failure becomes an
error result; otherwise the response is returned as-is (no fallback here). -/
def search_by_tags_only (O : Oracle) (tags : List String) (limit : Int)
    (srt : String) (accepted_only : Bool) : SearchResult × List Call :=
  match O .questions (tagsOnlyParams tags limit srt accepted_only) with
  | .error e =>
    ({ error := some ("API request failed: " ++ e), items := [],
       fallback_used := none },
     [(.questions, tagsOnlyParams tags limit srt accepted_only)])
  | .ok items =>
    ({ error := none, items := items, fallback_used := none },
     [(.questions, tagsOnlyParams tags limit srt accepted_only)])

/-- search_questions: endpoint selection on truthiness of query and tags;
neither present falls back to the hardcoded ['python'] tag. -/
def search_questions (O : Oracle) (query : String) (limit : Int) (srt : String)
    (tags : Option (List String)) (accepted_only : Bool) :
    Option (SearchResult × List Call) :=
  if !(query == "") && tagsTruthy tags then
    search_advanced O query limit srt tags accepted_only
  else if tagsTruthy tags && query == "" then
    some (search_by_tags_only O (tags.getD []) limit srt accepted_only)
  else if !(query == "") then
    search_advanced O query limit srt tags accepted_only
  else
    some (search_by_tags_only O ["python"] limit srt accepted_only)

/-! ### Result formatter (stack_api.py lines 301-351) -/

/-- _clean_html: strip tag-like substrings, decode the three entities in
source order (&lt;, &gt;, &amp;), collapse whitespace runs to single spaces
and trim. -/
def clean_html (s : String) : String :=
  ⟨joinSep [' ']
    (splitRuns (fun c => !pyIsSpace c)
      (replaceList "&amp;".data "&".data
        (replaceList "&gt;".data ">".data
          (replaceList "&lt;".data "<".data
            (stripTags s.data)))))⟩

/-- A formatted question record, with the defaults format_search_results
applies. -/
structure FormattedQuestion where
  question_id : Option Int
  title : String
  score : Int
  view_count : Int
  answer_count : Int
  is_answered : Bool
  has_accepted_answer : Bool
  tags : List String
  creation_date : Option Int
  last_activity_date : Option Int
  link : String
  body_preview : String
deriving DecidableEq

/-- Formatting of one raw question item, including the body-preview rule:
a falsy body gives the sentinel, otherwise the cleaned body is sliced to 300
characters and the ellipsis is appended unconditionally. -/
def formatItem (item : RawQuestion) : FormattedQuestion :=
  { question_id := item.question_id,
    title := item.title.getD "No title",
    score := item.score.getD 0,
    view_count := item.view_count.getD 0,
    answer_count := item.answer_count.getD 0,
    is_answered := item.is_answered.getD false,
    has_accepted_answer := item.accepted_answer_id.isSome,
    tags := item.tags.getD [],
    creation_date := item.creation_date,
    last_activity_date := item.last_activity_date,
    link := item.link.getD "",
    body_preview :=
      if !(item.body.getD "" == "") then
        strTake (clean_html (item.body.getD "")) 300 ++ "..."
      else
        "No preview available" }

/-- The heterogeneous dictionaries crossing the tool boundary. -/
inductive ToolRecord where
  | error (msg : String)
  | question (fq : FormattedQuestion)
  | noResults (message suggestion : String)
  | fallbackInfo (info original_query fallback_query : String)
      (fallback_tags : Option (List String)) (note : String)
  | searchFailed (msg query : String)
  | tagSearchFailed (msg : String) (tags : List String)
deriving DecidableEq

/-- format_search_results: an 'error' key short-circuits into a single error
record, otherwise each item is formatted in order. -/
def format_search_results (results : SearchResult) : List ToolRecord :=
  match results.error with
  | some e => [.error e]
  | none => results.items.map (fun item => .question (formatItem item))

/-- r.get('score', 0) on a tool record: only question records carry a score. -/
def recScore : ToolRecord → Int
  | .question fq => fq.score
  | _ => 0

/-- All string components of a tool record (used to state that a record does
or does not mention a given text anywhere). -/
def recordStrings : ToolRecord → List String
  | .error m => [m]
  | .question fq => [fq.title, fq.link, fq.body_preview] ++ fq.tags
  | .noResults m s => [m, s]
  | .fallbackInfo i oq fq tags n => [i, oq, fq, n] ++ tags.getD []
  | .searchFailed m q => [m, q]
  | .tagSearchFailed m tags => [m] ++ tags

/-- Does any string component of the record contain `q` as a substring? -/
def recordMentions (q : String) (r : ToolRecord) : Bool :=
  (recordStrings r).any (fun s => containsSub q.data s.data)

/-! ### Tool layer (main.py) -/

/-- search_stackoverflow: run the search, format, emit the no-results
diagnostic when formatting yields nothing, prepend the fallback-info record
when a fallback strategy was used.  An exception escaping the search layer
(the IndexError of strategy-4 construction) is caught and converted to an
error record carrying the query. -/
def search_stackoverflow (O : Oracle) (query : String) (limit : Int) (srt : String)
    (tags : Option (List String)) (accepted_only : Bool) : List ToolRecord :=
  match search_questions O query limit srt tags accepted_only with
  | none => [.searchFailed "Search failed: list index out of range" query]
  | some (results, _) =>
    let formatted := format_search_results results
    if formatted.isEmpty then
      [.noResults ("No results found for query: \"" ++ query ++ "\"")
        "Try using different keywords, removing tag filters, or using broader search terms"]
    else
      match results.fallback_used with
      | some fb =>
        .fallbackInfo "Used fallback search strategy" fb.original_query
          fb.fallback_query fb.fallback_tags
          "Results below are from a modified search to find relevant content"
        :: formatted
      | none => formatted

/-- search_by_tags: search with an empty query and the given tags, filter by
min_score when it is positive, emit the diagnostic when nothing remains. -/
def search_by_tags (O : Oracle) (tags : List String) (limit : Int) (srt : String)
    (min_score : Int) : List ToolRecord :=
  match search_questions O "" limit srt (some tags) false with
  | none => [.tagSearchFailed "Tag search failed: list index out of range" tags]
  | some (results, _) =>
    let formatted := format_search_results results
    let formatted :=
      if 0 < min_score then formatted.filter (fun r => min_score ≤ recScore r)
      else formatted
    if formatted.isEmpty then
      [.noResults ("No results found for tags: " ++ ⟨joinSep [',', ' '] tags⟩)
        ("Try different tags or lower the min_score (currently " ++ intToStr min_score ++ ")")]
    else formatted

/-! ### Question details (stack_api.py lines 271-299, main.py lines 93-172) -/

/-- The 'owner' sub-record of a raw answer. -/
structure Owner where
  display_name : Option String
deriving DecidableEq

/-- A raw answer record of the upstream 'items' array. -/
structure RawAnswer where
  answer_id : Option Int
  score : Option Int
  is_accepted : Option Bool
  creation_date : Option Int
  last_activity_date : Option Int
  body : Option String
  owner : Option Owner
deriving DecidableEq

/-- The transport layer for the /questions/{id}/answers endpoint (its params
are fixed by the source, so the oracle is indexed by the question id only). -/
abbrev AnswersOracle := Int → Except String (List RawAnswer)

/-- The dictionary returned by get_question_with_answers. -/
structure AnswersResult where
  error : Option String
  items : List RawAnswer
deriving DecidableEq

/-- get_question_with_answers: a transport failure becomes an error result. -/
def get_question_with_answers (A : AnswersOracle) (question_id : Int) : AnswersResult :=
  match A question_id with
  | .error e => { error := some ("API request failed: " ++ e), items := [] }
  | .ok items => { error := none, items := items }

/-- A formatted answer record with the source's defaults. -/
structure FormattedAnswer where
  answer_id : Option Int
  score : Int
  is_accepted : Bool
  creation_date : Option Int
  last_activity_date : Option Int
  body : String
  author : String
deriving DecidableEq

/-- Formatting of one raw answer. -/
def formatAnswer (a : RawAnswer) : FormattedAnswer :=
  { answer_id := a.answer_id,
    score := a.score.getD 0,
    is_accepted := a.is_accepted.getD false,
    creation_date := a.creation_date,
    last_activity_date := a.last_activity_date,
    body := clean_html (a.body.getD ""),
    author := ((a.owner.getD { display_name := none }).display_name).getD "Anonymous" }

/-- The answer loop of get_question_details: format each answer in order,
overwrite accepted_answer whenever an accepted answer is seen, replace
top_answer on a strictly greater score (the 'not top_answer' truthiness test
is a none-test, since formatted answer dicts are never empty). -/
def processAnswersGo (fas : List FormattedAnswer)
    (accepted top : Option FormattedAnswer) :
    List RawAnswer → List FormattedAnswer × Option FormattedAnswer × Option FormattedAnswer
  | [] => (fas, accepted, top)
  | a :: rest =>
    let fa := formatAnswer a
    processAnswersGo (fas ++ [fa])
      (if fa.is_accepted then some fa else accepted)
      (match top with
       | none => some fa
       | some t => if t.score < fa.score then some fa else some t)
      rest

/-- The answer loop started from the source's initial state. -/
def processAnswers (answers : List RawAnswer) :
    List FormattedAnswer × Option FormattedAnswer × Option FormattedAnswer :=
  processAnswersGo [] none none answers

/-- The dictionaries returned by get_question_details. -/
inductive QDResult where
  | linkOnly (message link note : String)
  | errorRec (msg : String) (question_id : Int) (link : String)
  | details (question_id : Int) (link : String) (answer_count : Nat)
      (answers : List FormattedAnswer)
      (accepted_answer top_answer : Option FormattedAnswer)
deriving DecidableEq

/-- The accepted_answer field of a details record. -/
def qdAccepted : QDResult → Option FormattedAnswer
  | .details _ _ _ _ accepted _ => accepted
  | _ => none

/-- get_question_details: without answers only a link record; an error from
the answers call is surfaced with the question id and link; otherwise the
answers are aggregated and the top answer is exposed only when its score is
strictly positive. -/
def get_question_details (A : AnswersOracle) (question_id : Int)
    (include_answers : Bool) : QDResult :=
  if !include_answers then
    .linkOnly ("Question details for ID " ++ intToStr question_id)
      ("https://stackoverflow.com/questions/" ++ intToStr question_id)
      "Use include_answers=True to get full details with answers"
  else
    let ad := get_question_with_answers A question_id
    match ad.error with
    | some e =>
      .errorRec e question_id
        ("https://stackoverflow.com/questions/" ++ intToStr question_id)
    | none =>
      let pr := processAnswers ad.items
      .details question_id
        ("https://stackoverflow.com/questions/" ++ intToStr question_id)
        pr.1.length pr.1 pr.2.1
        (match pr.2.2 with
         | some t => if 0 < t.score then some t else none
         | none => none)

/-! ### Spec-side descriptions (written from the specification's words, for
the refinement statements about the fallback cascade) -/

/-- Did this strategy's attempt come back with a non-empty result set?
(A transport failure has no result set and so does not count as success.) -/
def attemptSucceeds (O : Oracle) (limit : Int) (srt : String) (s : Strategy) : Bool :=
  match attempt O limit srt s with
  | .ok items => !items.isEmpty
  | .error _ => false

/-- The items of this strategy's attempt (empty on transport failure). -/
def attemptItems (O : Oracle) (limit : Int) (srt : String) (s : Strategy) :
    List RawQuestion :=
  match attempt O limit srt s with
  | .ok items => items
  | .error _ => []

/-- Did this strategy's attempt fail with a transport error? -/
def attemptErrors (O : Oracle) (limit : Int) (srt : String) (s : Strategy) : Bool :=
  match attempt O limit srt s with
  | .error _ => true
  | .ok _ => false

/-- The elements of a list up to and including the first one satisfying p. -/
def takeThru (p : α → Bool) : List α → List α
  | [] => []
  | x :: xs => if p x then [x] else x :: takeThru p xs

/-- Spec: the first eligible strategy, in list order, whose result set is
non-empty. -/
def specFirstSuccess (O : Oracle) (limit : Int) (srt : String)
    (l : List Strategy) : Option Strategy :=
  (l.filter eligible).find? (attemptSucceeds O limit srt)

/-- Spec: the outcome of the cascade — the first successful strategy's items
with its query and tags recorded together with the original query, or an
empty result set with no succeeded strategy recorded. -/
def specOutcome (O : Oracle) (limit : Int) (srt : String) (original_query : String)
    (l : List Strategy) : SearchResult :=
  match specFirstSuccess O limit srt l with
  | some s =>
    { error := none, items := attemptItems O limit srt s,
      fallback_used := some ⟨original_query, s.query, s.tags⟩ }
  | none => { error := none, items := [], fallback_used := none }

/-- Spec: the attempted strategies are the eligible ones in order, up to and
including the first success. -/
def specTrace (O : Oracle) (limit : Int) (srt : String) (l : List Strategy) :
    List Call :=
  (takeThru (attemptSucceeds O limit srt) (l.filter eligible)).map
    (strategyCall limit srt)

/-- First option if present, else the second. -/
def orO (a b : Option α) : Option α :=
  match a with
  | some x => some x
  | none => b

/-- The top-answer update step of the answer loop, as a fold step. -/
def topStep (top : Option FormattedAnswer) (fa : FormattedAnswer) :
    Option FormattedAnswer :=
  match top with
  | none => some fa
  | some t => if t.score < fa.score then some fa else some t

/-! ### Concrete fixtures used in witnesses and counterexamples -/

/-- A raw question with every field absent. -/
def blankItem : RawQuestion :=
  { question_id := none, title := none, score := none, view_count := none,
    answer_count := none, is_answered := none, accepted_answer_id := none,
    tags := none, creation_date := none, last_activity_date := none,
    link := none, body := none }

/-- A sample raw question returned by test oracles. -/
def sampleItem : RawQuestion :=
  { blankItem with question_id := some 1, title := some "t", score := some 5 }

/-- An upstream in which only the /questions endpoint has results. -/
def oracleOnlyQuestions : Oracle := fun ep _ =>
  match ep with
  | .questions => .ok [sampleItem]
  | .searchAdvanced => .ok []

/-- An upstream failing every call with the same transport error. -/
def errorOracle : Oracle := fun _ _ => .error "boom"

/-- An upstream failing exactly the calls whose q parameter is "a". -/
def oracleErrorOnA : Oracle := fun _ p =>
  if p.q = some "a" then .error "x" else .ok []

/-- An upstream returning zero items for every call. -/
def emptyOracle : Oracle := fun _ _ => .ok []

/-- A raw question with a negative score. -/
def negItem : RawQuestion :=
  { blankItem with question_id := some 9, score := some (-5) }

/-- An upstream returning only the negative-score question. -/
def negOracle : Oracle := fun _ _ => .ok [negItem]

/-- Raw questions with scores 60, 40 and 55, and an upstream returning them. -/
def score60 : RawQuestion := { blankItem with score := some 60 }

def score40 : RawQuestion := { blankItem with score := some 40 }

def score55 : RawQuestion := { blankItem with score := some 55 }

def scoreOracle : Oracle := fun _ _ => .ok [score60, score40, score55]

/-- A raw question whose body needs tag stripping and entity decoding. -/
def itemShortBody : RawQuestion :=
  { blankItem with question_id := some 2, body := some "hi <b>there</b> &amp; friends" }

/-- A search result holding a body-less and a short-bodied question. -/
def resPreview : SearchResult :=
  { error := none, items := [blankItem, itemShortBody], fallback_used := none }

/-- Two accepted answers with different ids and scores, and their upstream. -/
def ansA : RawAnswer :=
  { answer_id := some 1, score := some 3, is_accepted := some true,
    creation_date := none, last_activity_date := none, body := none, owner := none }

def ansB : RawAnswer := { ansA with answer_id := some 2, score := some 7 }

def twoAcceptedOracle : AnswersOracle := fun _ => .ok [ansA, ansB]

/-! ### Helper lemmas -/

theorem splitRunsGo_ne_empty (keep : Char → Bool) :
    ∀ (l acc : List Char) (t : String), t ∈ splitRunsGo keep acc l → t ≠ "" := by
  intro l
  induction l with
  | nil =>
    intro acc t ht hc
    simp only [splitRunsGo] at ht
    by_cases ha : acc.isEmpty
    · simp [ha] at ht
    · simp [ha] at ht
      subst ht
      have hd : acc.reverse = [] := congrArg String.data hc
      rw [List.reverse_eq_nil_iff] at hd
      rw [hd] at ha
      simp at ha
  | cons c rest ih =>
    intro acc t ht
    simp only [splitRunsGo] at ht
    by_cases hk : keep c
    · simp [hk] at ht
      exact ih _ _ ht
    · by_cases ha : acc.isEmpty
      · simp [hk, ha] at ht
        exact ih _ _ ht
      · simp [hk, ha] at ht
        rcases ht with ht | ht
        · subst ht
          intro hc
          have hd : acc.reverse = [] := congrArg String.data hc
          rw [List.reverse_eq_nil_iff] at hd
          rw [hd] at ha
          simp at ha
        · exact ih _ _ ht

theorem mem_pySplit_ne_empty (s : String) (t : String) (ht : t ∈ pySplit s) : t ≠ "" :=
  splitRunsGo_ne_empty _ _ _ _ ht

theorem mem_queryTokens_ne_empty (q : String) (t : String) (ht : t ∈ queryTokens q) : t ≠ "" :=
  splitRunsGo_ne_empty _ _ _ _ ht

theorem extract_keywords_sublist (q : String) :
    (extract_keywords q).Sublist (queryTokens q) :=
  (List.take_sublist _ _).trans (List.filter_sublist _)

theorem mem_extract_keywords (q : String) (w : String) (hw : w ∈ extract_keywords q) :
    w ∈ queryTokens q ∧ stop_words.contains w = false ∧ 2 < w.data.length := by
  have h1 : w ∈ (queryTokens q).filter
      (fun w => !stop_words.contains w && decide (2 < w.data.length)) :=
    (List.take_sublist _ _).subset hw
  have h2 := List.mem_filter.mp h1
  have h3 := h2.2
  simp only [Bool.and_eq_true, Bool.not_eq_true', decide_eq_true_eq] at h3
  exact ⟨h2.1, h3.1, h3.2⟩

theorem takeThru_subset (p : α → Bool) :
    ∀ (l : List α) (x : α), x ∈ takeThru p l → x ∈ l := by
  intro l
  induction l with
  | nil => intro x hx; simp [takeThru] at hx
  | cons a l ih =>
    intro x hx
    simp only [takeThru] at hx
    by_cases hp : p a
    · simp [hp] at hx
      simp [hx]
    · simp [hp] at hx
      rcases hx with rfl | hx
      · simp
      · simp [ih x hx]

theorem takeThru_append (p : α → Bool) :
    ∀ (l1 l2 : List α), (∀ x ∈ l1, p x = false) →
      takeThru p (l1 ++ l2) = l1 ++ takeThru p l2 := by
  intro l1
  induction l1 with
  | nil => intro l2 _; rfl
  | cons a l1 ih =>
    intro l2 h
    have ha : p a = false := h a (by simp)
    simp only [List.cons_append, takeThru, ha]
    simp only [Bool.false_eq_true, if_false, List.append_eq]
    rw [ih l2 (fun x hx => h x (by simp [hx]))]

theorem mem_takeThru_cons (p : α → Bool) (x : α) (xs : List α) :
    x ∈ takeThru p (x :: xs) := by
  simp only [takeThru]
  by_cases hp : p x <;> simp [hp]

theorem attemptErrors_not_succeeds (O : Oracle) (limit : Int) (srt : String)
    (s : Strategy) (h : attemptErrors O limit srt s = true) :
    attemptSucceeds O limit srt s = false := by
  unfold attemptErrors at h
  unfold attemptSucceeds
  cases ha : attempt O limit srt s with
  | error e => rfl
  | ok items => rw [ha] at h; simp at h

theorem tryFallbackLoop_eq (O : Oracle) (oq : String) (limit : Int) (srt : String) :
    ∀ l : List Strategy,
      tryFallbackLoop O oq limit srt l =
        (specOutcome O limit srt oq l, specTrace O limit srt l) := by
  intro l
  induction l with
  | nil => rfl
  | cons s rest ih =>
    by_cases he : eligible s
    · cases ha : attempt O limit srt s with
      | error e =>
        have hs : attemptSucceeds O limit srt s = false := by
          simp [attemptSucceeds, ha]
        simp [tryFallbackLoop, he, ha, ih, specOutcome, specFirstSuccess, specTrace,
          List.filter_cons, hs, takeThru]
      | ok items =>
        by_cases hi : items.isEmpty
        · have hs : attemptSucceeds O limit srt s = false := by
            simp [attemptSucceeds, ha, hi]
          simp [tryFallbackLoop, he, ha, hi, ih, specOutcome, specFirstSuccess, specTrace,
            List.filter_cons, hs, takeThru]
        · have hs : attemptSucceeds O limit srt s = true := by
            simp [attemptSucceeds, ha]
            simpa using hi
          have hit : attemptItems O limit srt s = items := by
            simp [attemptItems, ha]
          simp [tryFallbackLoop, he, ha, hi, specOutcome, specFirstSuccess, specTrace,
            List.filter_cons, hs, takeThru, hit]
    · have h1 : tryFallbackLoop O oq limit srt (s :: rest) =
          tryFallbackLoop O oq limit srt rest := by
        simp [tryFallbackLoop, he]
      have h2 : List.filter eligible (s :: rest) = List.filter eligible rest := by
        simp [List.filter_cons, he]
      rw [h1, ih]
      simp [specOutcome, specFirstSuccess, specTrace, h2]

theorem mem_loop_trace (O : Oracle) (oq : String) (limit : Int) (srt : String)
    (l : List Strategy) (c : Call) (hc : c ∈ (tryFallbackLoop O oq limit srt l).2) :
    ∃ s, s ∈ l ∧ eligible s = true ∧ c = strategyCall limit srt s := by
  rw [tryFallbackLoop_eq] at hc
  simp only [specTrace] at hc
  obtain ⟨s, hs, rfl⟩ := List.mem_map.mp hc
  have h1 := takeThru_subset _ _ s hs
  have h2 := List.mem_filter.mp h1
  exact ⟨s, h2.1, h2.2, rfl⟩

theorem orO_none_right (a : Option α) : orO a none = a := by
  cases a <;> rfl

theorem orO_assoc (a b c : Option α) : orO (orO a b) c = orO a (orO b c) := by
  cases a <;> rfl

theorem find?_append (p : α → Bool) :
    ∀ (l1 l2 : List α), (l1 ++ l2).find? p = orO (l1.find? p) (l2.find? p) := by
  intro l1
  induction l1 with
  | nil => intro l2; simp [orO]
  | cons a l1 ih =>
    intro l2
    by_cases hp : p a
    · simp [List.find?, hp, orO]
    · have hp' : p a = false := by simpa using hp
      simp [List.find?, hp', ih, orO]

theorem processAnswersGo_fst :
    ∀ (l : List RawAnswer) (fas : List FormattedAnswer)
      (accepted top : Option FormattedAnswer),
      (processAnswersGo fas accepted top l).1 = fas ++ l.map formatAnswer := by
  intro l
  induction l with
  | nil => intro fas accepted top; simp [processAnswersGo]
  | cons a rest ih =>
    intro fas accepted top
    simp only [processAnswersGo]
    rw [ih]
    simp

theorem processAnswersGo_acc :
    ∀ (l : List RawAnswer) (fas : List FormattedAnswer)
      (accepted top : Option FormattedAnswer),
      (processAnswersGo fas accepted top l).2.1 =
        orO ((l.map formatAnswer).reverse.find? (fun f => f.is_accepted)) accepted := by
  intro l
  induction l with
  | nil => intro fas accepted top; simp [processAnswersGo, orO]
  | cons a rest ih =>
    intro fas accepted top
    simp only [processAnswersGo]
    rw [ih]
    have h1 : ((a :: rest).map formatAnswer).reverse =
        (rest.map formatAnswer).reverse ++ [formatAnswer a] := by simp
    rw [h1, find?_append, orO_assoc]
    congr 1
    by_cases ha : (formatAnswer a).is_accepted
    · simp [List.find?, ha, orO]
    · have ha' : (formatAnswer a).is_accepted = false := by simpa using ha
      simp [List.find?, ha', orO]

theorem processAnswersGo_top :
    ∀ (l : List RawAnswer) (fas : List FormattedAnswer)
      (accepted top : Option FormattedAnswer),
      (processAnswersGo fas accepted top l).2.2 =
        (l.map formatAnswer).foldl topStep top := by
  intro l
  induction l with
  | nil => intro fas accepted top; simp [processAnswersGo]
  | cons a rest ih =>
    intro fas accepted top
    simp only [processAnswersGo, List.map_cons, List.foldl_cons]
    rw [ih]
    rfl

theorem foldl_topStep_some :
    ∀ (l : List FormattedAnswer) (x : FormattedAnswer),
      ∃ t, l.foldl topStep (some x) = some t := by
  intro l
  induction l with
  | nil => intro x; exact ⟨x, rfl⟩
  | cons f rest ih =>
    intro x
    simp only [List.foldl_cons]
    by_cases hx : x.score < f.score
    · have : topStep (some x) f = some f := by simp [topStep, hx]
      rw [this]; exact ih f
    · have : topStep (some x) f = some x := by simp [topStep, hx]
      rw [this]; exact ih x

theorem foldl_topStep_none_iff (l : List FormattedAnswer) :
    l.foldl topStep none = none ↔ l = [] := by
  cases l with
  | nil => simp
  | cons f rest =>
    simp only [List.foldl_cons]
    have h0 : topStep none f = some f := rfl
    rw [h0]
    obtain ⟨t, ht⟩ := foldl_topStep_some rest f
    rw [ht]
    simp

theorem topStep_isSome (top : Option FormattedAnswer) (fa : FormattedAnswer) :
    ∃ t1, topStep top fa = some t1 := by
  cases top with
  | none => exact ⟨fa, rfl⟩
  | some t =>
    by_cases hc : t.score < fa.score
    · exact ⟨fa, by simp [topStep, hc]⟩
    · exact ⟨t, by simp [topStep, hc]⟩

theorem topStep_spec (top : Option FormattedAnswer) (f t1 : FormattedAnswer)
    (ht1 : topStep top f = some t1) :
    f.score ≤ t1.score ∧ (t1 = f ∨ top = some t1) ∧
      (∀ t0, top = some t0 → t0.score ≤ t1.score) := by
  cases top with
  | none =>
    simp only [topStep] at ht1
    cases ht1
    refine ⟨le_refl _, Or.inl rfl, ?_⟩
    intro t0 h0
    cases h0
  | some t0 =>
    simp only [topStep] at ht1
    by_cases hc : t0.score < f.score
    · rw [if_pos hc] at ht1
      cases ht1
      refine ⟨le_refl _, Or.inl rfl, ?_⟩
      intro t2 h2
      cases h2
      exact le_of_lt hc
    · rw [if_neg hc] at ht1
      cases ht1
      refine ⟨le_of_not_lt hc, Or.inr rfl, ?_⟩
      intro t2 h2
      cases h2
      exact le_refl _

theorem foldl_topStep_mem_max :
    ∀ (l : List FormattedAnswer) (top : Option FormattedAnswer) (t : FormattedAnswer),
      l.foldl topStep top = some t →
      (top = some t ∨ t ∈ l) ∧ (∀ f ∈ l, f.score ≤ t.score) ∧
        (∀ t0, top = some t0 → t0.score ≤ t.score) := by
  intro l
  induction l with
  | nil =>
    intro top t h
    simp at h
    refine ⟨Or.inl h, by simp, ?_⟩
    intro t0 ht0
    rw [ht0] at h
    cases h
    exact le_refl _
  | cons f rest ih =>
    intro top t h
    simp only [List.foldl_cons] at h
    obtain ⟨hmem, hbound, hinit⟩ := ih (topStep top f) t h
    obtain ⟨t1, ht1⟩ := topStep_isSome top f
    obtain ⟨hft1, hor1, hup1⟩ := topStep_spec top f t1 ht1
    constructor
    · rcases hmem with hm | hm
      · rw [ht1] at hm
        cases hm
        rcases hor1 with rfl | hor1
        · exact Or.inr (by simp)
        · exact Or.inl hor1
      · exact Or.inr (by simp [hm])
    constructor
    · intro g hg
      rcases List.mem_cons.mp hg with hgf | hg
      · subst hgf
        exact le_trans hft1 (hinit t1 ht1)
      · exact hbound g hg
    · intro t0 ht0
      exact le_trans (hup1 t0 ht0) (hinit t1 ht1)

theorem search_by_tags_only_trace (O : Oracle) (ts : List String) (limit : Int)
    (srt : String) (ao : Bool) :
    (search_by_tags_only O ts limit srt ao).2 =
      [(Endpoint.questions, tagsOnlyParams ts limit srt ao)] := by
  unfold search_by_tags_only
  cases O .questions (tagsOnlyParams ts limit srt ao) <;> rfl

theorem search_by_tags_only_no_fallback (O : Oracle) (ts : List String) (limit : Int)
    (srt : String) (ao : Bool) :
    (search_by_tags_only O ts limit srt ao).1.fallback_used = none := by
  unfold search_by_tags_only
  cases O .questions (tagsOnlyParams ts limit srt ao) <;> rfl

theorem try_fallback_calls (O : Oracle) (q : String) (limit : Int) (srt : String)
    (tags : Option (List String)) (ao : Bool) (pr : SearchResult × List Call)
    (hf : try_fallback_searches O q limit srt tags ao = some pr) :
    ∀ c ∈ pr.2, c.2.pagesize = clampLimit limit := by
  unfold try_fallback_searches at hf
  cases hl : fallbackStrategies q tags with
  | none => rw [hl] at hf; simp at hf
  | some l =>
    rw [hl] at hf
    simp only [Option.map_some', Option.some.injEq] at hf
    intro c hc
    rw [← hf] at hc
    obtain ⟨s, _, _, rfl⟩ := mem_loop_trace O q limit srt l c hc
    rfl

theorem search_advanced_calls (O : Oracle) (q : String) (limit : Int) (srt : String)
    (tags : Option (List String)) (ao : Bool) (res : SearchResult) (trace : List Call)
    (h : search_advanced O q limit srt tags ao = some (res, trace)) :
    ∀ c ∈ trace, c.2.pagesize = clampLimit limit := by
  intro c hc
  unfold search_advanced at h
  cases ho : O .searchAdvanced (advancedParams q limit srt tags ao) with
  | error e =>
    rw [ho] at h
    simp only [Option.some.injEq, Prod.mk.injEq] at h
    rw [← h.2] at hc
    simp at hc
    rw [hc]
    rfl
  | ok items =>
    rw [ho] at h
    by_cases hi : items.isEmpty
    · simp only [hi, if_true] at h
      cases hf : try_fallback_searches O q limit srt tags ao with
      | none => rw [hf] at h; simp at h
      | some pr =>
        rw [hf] at h
        cases pr with
        | mk r t =>
          simp only [Option.some.injEq, Prod.mk.injEq] at h
          rw [← h.2] at hc
          rcases List.mem_cons.mp hc with rfl | hc
          · rfl
          · exact try_fallback_calls O q limit srt tags ao (r, t) hf c hc
    · simp only [hi, Bool.false_eq_true, if_false, Option.some.injEq, Prod.mk.injEq] at h
      rw [← h.2] at hc
      simp at hc
      rw [hc]
      rfl

/-- C1: given a primary advanced search returning zero items, the dispatcher
executes the fallback strategies strictly in the order 1, 2, 3, 4 (skipping
ineligible ones), stops at the first strategy whose result set is non-empty,
and records that strategy's query and tags together with the original query;
if no strategy yields items, an empty result set with no recorded strategy is
returned.  The right-hand side is the specification-side description of the
cascade (first success by find?, attempted prefix by takeThru). -/
theorem c1_fallback_cascade (O : Oracle) (q : String) (limit : Int) (srt : String)
    (tags : Option (List String)) (ao : Bool) (l : List Strategy)
    (hl : fallbackStrategies q tags = some l)
    (hp : O .searchAdvanced (advancedParams q limit srt tags ao) = .ok []) :
    search_advanced O q limit srt tags ao =
      some (specOutcome O limit srt q l,
        (.searchAdvanced, advancedParams q limit srt tags ao) ::
          specTrace O limit srt l) := by
  unfold search_advanced
  rw [hp]
  simp only [List.isEmpty_nil, if_true]
  unfold try_fallback_searches
  rw [hl]
  simp [tryFallbackLoop_eq]

/-- Witness for C1: a crafted scenario in which only strategy 3 succeeds.
For the query "how to use pandas dataframe merge" the four strategies are
keyword join / keyword join with pandas tag / pandas tag only / single
keyword; against an upstream with results only on /questions, the cascade
makes exactly the primary call plus fallback calls 1, 2, 3 (strategy 4 is
never attempted) and records strategy 3's query and tags. -/
theorem c1_fallback_cascade_witness :
    search_advanced oracleOnlyQuestions "how to use pandas dataframe merge" 10
        "relevance" none false =
      some ({ error := none, items := [sampleItem],
              fallback_used := some ⟨"how to use pandas dataframe merge", "",
                some ["pandas"]⟩ },
        [(.searchAdvanced,
            advancedParams "how to use pandas dataframe merge" 10 "relevance" none false),
         strategyCall 10 "relevance" ⟨"use pandas dataframe merge", none, false⟩,
         strategyCall 10 "relevance" ⟨"use pandas dataframe merge", some ["pandas"], false⟩,
         strategyCall 10 "relevance" ⟨"", some ["pandas"], false⟩]) := by
  have h := c1_fallback_cascade oracleOnlyQuestions "how to use pandas dataframe merge"
    10 "relevance" none false
    [⟨"use pandas dataframe merge", none, false⟩,
     ⟨"use pandas dataframe merge", some ["pandas"], false⟩,
     ⟨"", some ["pandas"], false⟩,
     ⟨"use", none, false⟩]
    (by decide) (by rfl)
  exact h.trans (by decide)

/-- C8: extract_keywords returns at most 5 tokens, a sublist (hence in the
original relative order) of the word tokens of the lowercased query, each not
in the stop-word set, longer than 2 characters, and non-empty. -/
theorem c8_keywords (q : String) :
    (extract_keywords q).length ≤ 5
    ∧ (extract_keywords q).Sublist (queryTokens q)
    ∧ ∀ w ∈ extract_keywords q,
        stop_words.contains w = false ∧ 2 < w.data.length ∧ w ≠ "" := by
  refine ⟨?_, extract_keywords_sublist q, ?_⟩
  · unfold extract_keywords
    simp [List.length_take_le]
  · intro w hw
    obtain ⟨h1, h2, h3⟩ := mem_extract_keywords q w hw
    exact ⟨h2, h3, mem_queryTokens_ne_empty q w h1⟩

/-- Witness for C8 at a query with 8 words of which 4 are stop-words: the
survivors are the 4 non-stop-words of length > 2, in order. -/
theorem c8_keywords_witness :
    extract_keywords "how to sort a list in python quickly" =
      ["sort", "list", "python", "quickly"]
    ∧ stop_words.contains "sort" = false ∧ 2 < "sort".data.length := by
  refine ⟨by decide, ?_, ?_⟩
  · exact ((c8_keywords "how to sort a list in python quickly").2.2 "sort" (by decide)).1
  · exact ((c8_keywords "how to sort a list in python quickly").2.2 "sort" (by decide)).2.1

/-- C9: every upstream call made by search_questions (primary advanced
search, tag-only search, and each fallback attempt) carries a pagesize equal
to the requested limit clamped into [1, 100]; the unclamped limit is never
sent. -/
theorem c9_pagesize_clamped (O : Oracle) (q : String) (limit : Int) (srt : String)
    (tags : Option (List String)) (ao : Bool) (res : SearchResult) (trace : List Call)
    (h : search_questions O q limit srt tags ao = some (res, trace)) :
    ∀ c ∈ trace, c.2.pagesize = clampLimit limit
      ∧ 1 ≤ c.2.pagesize ∧ c.2.pagesize ≤ 100 := by
  have hb1 : (1 : Int) ≤ clampLimit limit := by
    unfold clampLimit
    exact le_min (le_max_right _ _) (by norm_num)
  have hb2 : clampLimit limit ≤ 100 := min_le_right _ _
  have key : ∀ c ∈ trace, c.2.pagesize = clampLimit limit := by
    unfold search_questions at h
    by_cases h1 : (!(q == "") && tagsTruthy tags) = true
    · rw [if_pos h1] at h
      exact search_advanced_calls O q limit srt tags ao res trace h
    · rw [if_neg (by simpa using h1)] at h
      by_cases h2 : (tagsTruthy tags && (q == "")) = true
      · rw [if_pos h2] at h
        simp only [Option.some.injEq] at h
        intro c hc
        have ht : trace = [(Endpoint.questions, tagsOnlyParams (tags.getD []) limit srt ao)] := by
          rw [← search_by_tags_only_trace O (tags.getD []) limit srt ao, h]
        rw [ht] at hc
        simp at hc
        rw [hc]
        rfl
      · rw [if_neg (by simpa using h2)] at h
        by_cases h3 : (!(q == "")) = true
        · rw [if_pos h3] at h
          exact search_advanced_calls O q limit srt tags ao res trace h
        · rw [if_neg (by simpa using h3)] at h
          simp only [Option.some.injEq] at h
          intro c hc
          have ht : trace = [(Endpoint.questions, tagsOnlyParams ["python"] limit srt ao)] := by
            rw [← search_by_tags_only_trace O ["python"] limit srt ao, h]
          rw [ht] at hc
          simp at hc
          rw [hc]
          rfl
  intro c hc
  have hk := key c hc
  rw [hk]
  exact ⟨rfl, hb1, hb2⟩

/-- Witness for C9: a limit of 250 is clamped to 100 on the single /questions
call of a tag-only search. -/
theorem c9_pagesize_clamped_witness :
    (tagsOnlyParams ["python"] 250 "votes" false).pagesize = clampLimit 250
    ∧ clampLimit 250 = 100 := by
  have h := c9_pagesize_clamped errorOracle "" 250 "votes" (some ["python"]) false
    { error := some "API request failed: boom", items := [], fallback_used := none }
    [(Endpoint.questions, tagsOnlyParams ["python"] 250 "votes" false)]
    (by rfl)
    (Endpoint.questions, tagsOnlyParams ["python"] 250 "votes" false)
    (by simp)
  exact ⟨h.1, by decide⟩

/-- Counterexample for C2: with a transport failure on the primary call for
query "pandas merge", the user-visible output is a single error record whose
only string is the upstream failure message; no record contains the original
query anywhere. -/
theorem c2_primary_error_query_missing :
    search_stackoverflow errorOracle "pandas merge" 10 "relevance" none false =
      [ToolRecord.error "API request failed: boom"]
    ∧ recordMentions "pandas merge" (ToolRecord.error "API request failed: boom") = false :=
  ⟨by decide, by decide⟩

/-- C2 (amended): a transport failure on the primary upstream call is
surfaced as a user-visible error record carrying the upstream failure message
(but not the original query); a transport failure on a fallback attempt does
not abort the cascade — after any prefix of unsuccessful strategies, a
strategy failing with a transport error is followed by an attempt of the next
eligible strategy. -/
theorem c2_transport_failures :
    (∀ (O : Oracle) (q : String) (limit : Int) (srt : String)
        (tags : Option (List String)) (ao : Bool) (e : String),
        q ≠ "" →
        O .searchAdvanced (advancedParams q limit srt tags ao) = .error e →
        search_stackoverflow O q limit srt tags ao =
          [.error ("API request failed: " ++ e)])
    ∧ (∀ (O : Oracle) (oq : String) (limit : Int) (srt : String)
        (l pre post : List Strategy) (s s2 : Strategy),
        l.filter eligible = pre ++ s :: s2 :: post →
        (∀ x ∈ pre, attemptSucceeds O limit srt x = false) →
        attemptErrors O limit srt s = true →
        strategyCall limit srt s2 ∈ (tryFallbackLoop O oq limit srt l).2) := by
  constructor
  · intro O q limit srt tags ao e hq he
    have hadv : search_advanced O q limit srt tags ao =
        some ({ error := some ("API request failed: " ++ e), items := [],
                fallback_used := none },
          [(.searchAdvanced, advancedParams q limit srt tags ao)]) := by
      unfold search_advanced
      rw [he]
    have hq' : (q == "") = false := by simpa using hq
    have hsq : search_questions O q limit srt tags ao =
        some ({ error := some ("API request failed: " ++ e), items := [],
                fallback_used := none },
          [(.searchAdvanced, advancedParams q limit srt tags ao)]) := by
      unfold search_questions
      by_cases ht : tagsTruthy tags
      · rw [if_pos (by simp [hq', ht])]
        exact hadv
      · rw [if_neg (by simp [ht]), if_neg (by simp [ht]), if_pos (by simp [hq'])]
        exact hadv
    unfold search_stackoverflow
    rw [hsq]
    simp [format_search_results]
  · intro O oq limit srt l pre post s s2 hfe hpre herr
    rw [tryFallbackLoop_eq]
    simp only [specTrace]
    rw [hfe]
    have hsf : attemptSucceeds O limit srt s = false :=
      attemptErrors_not_succeeds _ _ _ _ herr
    rw [takeThru_append _ pre (s :: s2 :: post) hpre]
    apply List.mem_map_of_mem
    apply List.mem_append_right
    simp only [takeThru, hsf, Bool.false_eq_true, if_false]
    exact List.mem_cons_of_mem _ (mem_takeThru_cons _ s2 post)

/-- Witness for C2 (amended): the primary-failure part at query "react" with
message "boom", and the continuation part with two strategies where the first
errors and the second is still called. -/
theorem c2_transport_failures_witness :
    search_stackoverflow errorOracle "react" 10 "relevance" none false =
      [ToolRecord.error "API request failed: boom"]
    ∧ strategyCall 10 "votes" ⟨"b", none, false⟩ ∈
        (tryFallbackLoop oracleErrorOnA "orig" 10 "votes"
          [⟨"a", none, false⟩, ⟨"b", none, false⟩]).2 := by
  constructor
  · exact c2_transport_failures.1 errorOracle "react" 10 "relevance" none false "boom"
      (by decide) rfl
  · exact c2_transport_failures.2 oracleErrorOnA "orig" 10 "votes"
      [⟨"a", none, false⟩, ⟨"b", none, false⟩] [] []
      ⟨"a", none, false⟩ ⟨"b", none, false⟩
      (by decide) (by intro x hx; simp at hx) (by decide)

/-- Counterexample for C3: a request dispatched to the tag-listing endpoint
(query absent, tags ["python"]) whose primary attempt returns zero items makes
exactly one upstream call and returns the empty result directly — the
fallback planner is never invoked. -/
theorem c3_tag_path_counterexample :
    search_questions emptyOracle "" 10 "votes" (some ["python"]) false =
      some ({ error := none, items := [], fallback_used := none },
        [(Endpoint.questions, tagsOnlyParams ["python"] 10 "votes" false)]) := by
  decide

/-- C3 (amended): only requests dispatched to the advanced-search endpoint
invoke the fallback cascade; a request with an absent query is dispatched to
the tag-listing endpoint, makes exactly one upstream call, and records no
fallback strategy, whatever its primary attempt returns. -/
theorem c3_tag_path_no_fallback (O : Oracle) (limit : Int) (srt : String)
    (tags : Option (List String)) (ao : Bool) :
    ∃ p res, search_questions O "" limit srt tags ao =
        some (res, [(Endpoint.questions, p)]) ∧ res.fallback_used = none := by
  unfold search_questions
  by_cases ht : tagsTruthy tags
  · rw [if_neg (by simp), if_pos (by simp [ht])]
    refine ⟨tagsOnlyParams (tags.getD []) limit srt ao,
      (search_by_tags_only O (tags.getD []) limit srt ao).1, ?_,
      search_by_tags_only_no_fallback O _ limit srt ao⟩
    rw [← search_by_tags_only_trace O (tags.getD []) limit srt ao]
  · rw [if_neg (by simp), if_neg (by simp [ht]), if_neg (by simp)]
    refine ⟨tagsOnlyParams ["python"] limit srt ao,
      (search_by_tags_only O ["python"] limit srt ao).1, ?_,
      search_by_tags_only_no_fallback O _ limit srt ao⟩
    rw [← search_by_tags_only_trace O ["python"] limit srt ao]

/-- Counterexample for C4: for the query "how to" with no tags, the strategy
list exists and its strategy 1 (and 2) already has empty query and empty
tags, contradicting that the empty/empty case can occur only for strategy
3. -/
theorem c4_empty_strategy_counterexample :
    fallbackStrategies "how to" none =
      some [⟨"", none, false⟩, ⟨"", none, false⟩, ⟨"", some [], false⟩,
        ⟨"how", none, false⟩]
    ∧ skippedStrategy ⟨"", none, false⟩ = true
    ∧ eligible ⟨"", none, false⟩ = false :=
  ⟨by decide, by decide, by decide⟩

/-- C4 (amended): strategies with empty query and empty tags are skipped —
every dispatched fallback call belongs to an eligible strategy of the list —
and strategy 4 is never in the empty/empty case (its query is a non-empty
keyword or split token); the empty/empty case can occur for strategies 1-3. -/
theorem c4_skip_and_strategy4 (oq : String) (otags : Option (List String))
    (l : List Strategy) (hl : fallbackStrategies oq otags = some l) :
    (∃ s1 s2 s3 s4, l = [s1, s2, s3, s4] ∧ eligible s4 = true)
    ∧ ∀ (O : Oracle) (limit : Int) (srt : String) (c : Call),
        c ∈ (tryFallbackLoop O oq limit srt l).2 →
        ∃ s, s ∈ l ∧ eligible s = true ∧ c = strategyCall limit srt s := by
  constructor
  · unfold fallbackStrategies at hl
    cases hq4 : strategy4Query oq with
    | none => rw [hq4] at hl; simp at hl
    | some q4 =>
      rw [hq4] at hl
      simp only [Option.some.injEq] at hl
      subst hl
      refine ⟨_, _, _, _, rfl, ?_⟩
      have hq4ne : q4 ≠ "" := by
        unfold strategy4Query at hq4
        cases hk : extract_keywords oq with
        | cons k ks =>
          rw [hk] at hq4
          simp only [Option.some.injEq] at hq4
          subst hq4
          exact mem_queryTokens_ne_empty oq k
            (mem_extract_keywords oq k (by rw [hk]; simp)).1
        | nil =>
          rw [hk] at hq4
          cases hs : pySplit oq with
          | nil => rw [hs] at hq4; simp at hq4
          | cons x xs =>
            rw [hs] at hq4
            simp only [List.head?_cons, Option.some.injEq] at hq4
            subst hq4
            exact mem_pySplit_ne_empty oq x (by rw [hs]; simp)
      simp [eligible, skippedStrategy, tagsTruthy, hq4ne]
  · intro O limit srt c hc
    exact mem_loop_trace O oq limit srt l c hc

/-- Witness for C4 (amended): for "how to" with no tags, strategy 4 is
⟨"how", none⟩ and is eligible. -/
theorem c4_skip_and_strategy4_witness :
    eligible (⟨"how", none, false⟩ : Strategy) = true := by
  obtain ⟨⟨s1, s2, s3, s4, hl, he⟩, -⟩ :=
    c4_skip_and_strategy4 "how to" none
      [⟨"", none, false⟩, ⟨"", none, false⟩, ⟨"", some [], false⟩,
        ⟨"how", none, false⟩]
      (by decide)
  have h4 : s4 = ⟨"how", none, false⟩ := by
    have := List.getElem_of_eq hl.symm (by simp : 3 < 4)
    simpa using this
  rw [← h4]
  exact he

/-- C5: in a formatted result list, the record for each raw item carries the
body-preview: the fixed sentinel when the body is absent or empty, and
otherwise the first 300 characters of the cleaned body with the ellipsis
always appended (also when no truncation occurred). -/
theorem c5_body_preview (res : SearchResult) (i : Nat) (item : RawQuestion)
    (he : res.error = none) (hi : res.items[i]? = some item) :
    ∃ fq, (format_search_results res)[i]? = some (ToolRecord.question fq)
      ∧ ((item.body = none ∨ item.body = some "") →
          fq.body_preview = "No preview available")
      ∧ (∀ s, item.body = some s → s ≠ "" →
          fq.body_preview = strTake (clean_html s) 300 ++ "..."
          ∧ (strTake (clean_html s) 300).data.length ≤ 300) := by
  refine ⟨formatItem item, ?_, ?_, ?_⟩
  · unfold format_search_results
    rw [he, List.getElem?_map, hi]
    rfl
  · intro hb
    rcases hb with hb | hb <;> simp [formatItem, hb]
  · intro s hs hne
    constructor
    · simp [formatItem, hs, hne]
    · simp only [strTake, List.length_take]
      omega

/-- Witness for C5: a short body is cleaned (tags stripped, entities decoded,
whitespace collapsed) and still gets the ellipsis appended although it is far
below 300 characters; an absent body gives the sentinel. -/
theorem c5_body_preview_witness :
    (formatItem itemShortBody).body_preview = "hi there & friends..."
    ∧ (formatItem blankItem).body_preview = "No preview available" := by
  obtain ⟨fq, hget, -, hbody⟩ := c5_body_preview resPreview 1 itemShortBody rfl (by decide)
  have h2 : (format_search_results resPreview)[1]? =
      some (ToolRecord.question (formatItem itemShortBody)) := by decide
  have hfq : formatItem itemShortBody = fq := by
    have h3 := h2.symm.trans hget
    simpa using h3
  constructor
  · rw [hfq]
    exact ((hbody "hi <b>there</b> &amp; friends" rfl (by decide)).1).trans (by decide)
  · decide

/-- Counterexample for C6: with the default min_score of 0 the filter is
skipped entirely, so a question with negative score is returned, violating
"every result record has score ≥ minScore" at minScore = 0. -/
theorem c6_minscore_zero_counterexample :
    search_by_tags negOracle ["python"] 10 "votes" 0 =
      [ToolRecord.question (formatItem negItem)]
    ∧ recScore (ToolRecord.question (formatItem negItem)) = -5
    ∧ ¬ ((0 : Int) ≤ -5) :=
  ⟨by decide, by decide, by decide⟩

/-- C6 (amended): for strictly positive min_score, search_by_tags returns
either the no-results diagnostic or exactly the formatted records whose score
is at least min_score, in their original order (a filter of the formatted
list); every returned question record then has score ≥ min_score.  For
min_score ≤ 0 the filter is skipped (see the counterexample). -/
theorem c6_minscore_filter (O : Oracle) (tags : List String) (limit : Int)
    (srt : String) (ms : Int) (hms : 0 < ms) :
    ∃ res trace, search_questions O "" limit srt (some tags) false = some (res, trace)
      ∧ search_by_tags O tags limit srt ms =
          (if ((format_search_results res).filter
                (fun r => ms ≤ recScore r)).isEmpty then
            [ToolRecord.noResults
              ("No results found for tags: " ++ ⟨joinSep [',', ' '] tags⟩)
              ("Try different tags or lower the min_score (currently "
                ++ intToStr ms ++ ")")]
          else (format_search_results res).filter (fun r => ms ≤ recScore r))
      ∧ ∀ r ∈ (format_search_results res).filter (fun r => ms ≤ recScore r),
          ms ≤ recScore r := by
  have hsq : ∃ res trace,
      search_questions O "" limit srt (some tags) false = some (res, trace) := by
    unfold search_questions
    by_cases ht : tagsTruthy (some tags)
    · rw [if_neg (by simp), if_pos (by simp [ht])]
      exact ⟨_, _, rfl⟩
    · rw [if_neg (by simp), if_neg (by simp [ht]), if_neg (by simp)]
      exact ⟨_, _, rfl⟩
  obtain ⟨res, trace, hres⟩ := hsq
  refine ⟨res, trace, hres, ?_, ?_⟩
  · unfold search_by_tags
    rw [hres]
    simp only [hms, if_true]
  · intro r hr
    simpa using (List.mem_filter.mp hr).2

/-- Witness for C6 (amended): for scores 60, 40, 55 and min_score 50, the
output keeps exactly the 60- and 55-score records, in order. -/
theorem c6_minscore_filter_witness :
    search_by_tags scoreOracle ["python"] 10 "votes" 50 =
      [ToolRecord.question (formatItem score60),
       ToolRecord.question (formatItem score55)] := by
  obtain ⟨res, trace, hres, heq, -⟩ :=
    c6_minscore_filter scoreOracle ["python"] 10 "votes" 50 (by decide)
  have hconc : search_questions scoreOracle "" 10 "votes" (some ["python"]) false =
      some ({ error := none, items := [score60, score40, score55],
              fallback_used := none },
        [(Endpoint.questions, tagsOnlyParams ["python"] 10 "votes" false)]) := by
    decide
  rw [hres] at hconc
  simp only [Option.some.injEq, Prod.mk.injEq] at hconc
  rw [heq, hconc.1]
  decide

/-- Counterexample for C7: with two accepted answers, the first accepted item
is the one with id 1, but the returned accepted-answer is the formatted item
with id 2 — the last accepted, not the first. -/
theorem c7_accepted_counterexample :
    ([ansA, ansB].map formatAnswer).find? (fun f => f.is_accepted) =
      some (formatAnswer ansA)
    ∧ qdAccepted (get_question_details twoAcceptedOracle 7 true) =
        some (formatAnswer ansB)
    ∧ formatAnswer ansB ≠ formatAnswer ansA :=
  ⟨by decide, by decide, by decide⟩

/-- C7 (amended): the details record lists the answers formatted in order;
its accepted-answer is the last item with is_accepted (the first of the
reversed list), not the first; the top-answer is a maximum-score answer and
is exposed only when its score is strictly positive. -/
theorem c7_answer_aggregation (A : AnswersOracle) (qid : Int)
    (answers : List RawAnswer) (h : A qid = Except.ok answers) :
    ∃ top : Option FormattedAnswer,
      get_question_details A qid true =
        QDResult.details qid ("https://stackoverflow.com/questions/" ++ intToStr qid)
          (answers.map formatAnswer).length (answers.map formatAnswer)
          ((answers.map formatAnswer).reverse.find? (fun f => f.is_accepted))
          (match top with
           | some t => if 0 < t.score then some t else none
           | none => none)
      ∧ (top = none ↔ answers = [])
      ∧ ∀ t, top = some t → t ∈ answers.map formatAnswer
          ∧ ∀ f ∈ answers.map formatAnswer, f.score ≤ t.score := by
  refine ⟨(processAnswers answers).2.2, ?_, ?_, ?_⟩
  · simp [get_question_details, get_question_with_answers, h, processAnswers,
      processAnswersGo_fst, processAnswersGo_acc, processAnswersGo_top,
      orO_none_right]
  · constructor
    · intro htop
      unfold processAnswers at htop
      rw [processAnswersGo_top] at htop
      have h0 := (foldl_topStep_none_iff (answers.map formatAnswer)).mp htop
      simpa using h0
    · intro ha
      subst ha
      rfl
  · intro t ht
    unfold processAnswers at ht
    rw [processAnswersGo_top] at ht
    obtain ⟨hmem, hbound, -⟩ :=
      foldl_topStep_mem_max (answers.map formatAnswer) none t ht
    rcases hmem with hm | hm
    · cases hm
    · exact ⟨hm, hbound⟩

/-- Witness for C7 (amended): for the two accepted answers with scores 3 and
7, the accepted-answer field returned by the code is the last accepted one. -/
theorem c7_answer_aggregation_witness :
    qdAccepted (get_question_details twoAcceptedOracle 7 true) =
      some (formatAnswer ansB) := by
  obtain ⟨top, hdet, -, -⟩ := c7_answer_aggregation twoAcceptedOracle 7 [ansA, ansB] rfl
  rw [hdet]
  simp only [qdAccepted]
  decide

/-- Counterexample for C10: for the whitespace-only query " " (non-empty),
strategy-4 construction faults — the keyword list and the split token list
are both empty, original_query.split()[0] raises IndexError, and the whole
search raises instead of returning a result. -/
theorem c10_whitespace_counterexample :
    strategy4Query " " = none
    ∧ fallbackStrategies " " none = none
    ∧ search_questions emptyOracle " " 10 "relevance" none false = none
    ∧ " " ≠ "" :=
  ⟨by decide, by decide, by decide, by decide⟩

/-- C10 (amended): whenever the original query has at least one
whitespace-delimited token, the strategy list construction is well-defined
and strategy 4 has a non-empty query, no tags and accepted_only false; for an
entirely-whitespace query the selection faults (see the counterexample). -/
theorem c10_strategy4_defined (q : String) (otags : Option (List String))
    (h : pySplit q ≠ []) :
    ∃ l, fallbackStrategies q otags = some l
      ∧ ∃ s4, l.get? 3 = some s4 ∧ s4.tags = none ∧ s4.accepted_only = false
        ∧ s4.query ≠ "" := by
  have hq4 : ∃ q4, strategy4Query q = some q4 ∧ q4 ≠ "" := by
    unfold strategy4Query
    cases hk : extract_keywords q with
    | cons k ks =>
      refine ⟨k, rfl, ?_⟩
      exact mem_queryTokens_ne_empty q k
        (mem_extract_keywords q k (by rw [hk]; simp)).1
    | nil =>
      cases hs : pySplit q with
      | nil => exact absurd hs h
      | cons x xs =>
        refine ⟨x, rfl, ?_⟩
        exact mem_pySplit_ne_empty q x (by rw [hs]; simp)
  obtain ⟨q4, hq4e, hq4ne⟩ := hq4
  unfold fallbackStrategies
  rw [hq4e]
  exact ⟨_, rfl, ⟨q4, none, false⟩, rfl, rfl, rfl, hq4ne⟩

/-- Witness for C10 (amended): "how to" splits into tokens, so its strategy
list is defined. -/
theorem c10_strategy4_defined_witness :
    (fallbackStrategies "how to" none).isSome = true := by
  obtain ⟨l, hl, -⟩ := c10_strategy4_defined "how to" none (by decide)
  rw [hl]
  rfl
